import Mathlib

/-!
Shallow embedding of the stock/sale consistency workflow of the retail
inventory backend in `src/main.py`.

The relational store is modelled as three in-memory tables (`DB`).  Each
endpoint handler becomes a pure function `DB → args → Response × DB`; the
returned `DB` is the store after the handler's committed writes.  SQL
statements are translated row-by-row:

* `SELECT ... WHERE c` → `List.filter`, with the handler inspecting the
  resulting row list exactly the way the Python code inspects
  `execute_query`'s return value (`if not rows`, `rows[0][...]`);
* `UPDATE ... WHERE c` → `List.map` that rewrites every row satisfying `c`;
* `DELETE ... WHERE c` → `List.filter` keeping rows not satisfying `c`;
* `INSERT` → appending a row.

Python/MySQL integers are unbounded for the purposes of this code, so ids,
quantities and date ordinals are `Int`.  `expiry_date` (a calendar date
compared with `<=`) is modelled as a day ordinal; `datetime.now()` becomes
an explicit `today` parameter.  Store-assigned columns that no handler ever
reads back (`sale_id`, `sale_date`, and the `price`/`category` columns of
`products`, the latter a float) are omitted from the row types.

`execute_query` swallows store errors and returns an error value that the
write paths of `add_sale` never inspect; `add_sale_exec` makes the success
or failure of its two write statements explicit oracle arguments
(`insertOk`, `updateOk`), a failed write leaving the table untouched.
-/

namespace RetailInventory

/-- A row of the `stocks` table: `{stock_id, product_id, stock_quantity,
expiry_date, user_id}` (src/main.py, `Stock` model / stocks schema). -/
structure StockRow where
  stock_id : Int
  product_id : Int
  stock_quantity : Int
  expiry_date : Int
  user_id : Int
deriving Repr, DecidableEq

/-- A row of the `sales` table as inserted by `add_sale`:
`{product_id, quantity_sold, user_id}` (`sale_id` and `sale_date` are
store-assigned and never read back in scope). -/
structure SaleRow where
  product_id : Int
  quantity_sold : Int
  user_id : Int
deriving Repr, DecidableEq

/-- A row of the `products` table, restricted to the columns the verified
operations read: `{product_id, product_name, user_id}`. -/
structure ProductRow where
  product_id : Int
  product_name : String
  user_id : Int
deriving Repr, DecidableEq

/-- The relational store: the three tables the inventory workflow touches. -/
structure DB where
  stocks : List StockRow
  sales : List SaleRow
  products : List ProductRow
deriving Repr, DecidableEq

/-- A handler outcome: a success payload (`return {"message": ...}`) or an
`HTTPException(status_code, detail)`. -/
inductive Response where
  | ok (message : String)
  | err (status : Int) (detail : String)
deriving Repr, DecidableEq

/-- `add_sale` (src/main.py:164-183) with the outcomes of its two write
statements explicit: `insertOk` is whether the sale INSERT commits,
`updateOk` whether the stock UPDATE commits.  The Python code ignores
`execute_query`'s return value for both writes, so the response does not
depend on these oracles.  The stock check `SELECT stock_quantity FROM
stocks WHERE product_id = %s` filters by product only (no `user_id`), and
only `stock[0]` is inspected; the UPDATE decrements every row with that
`product_id`. -/
def add_sale_exec (insertOk updateOk : Bool) (db : DB) (sale : SaleRow) :
    Response × DB :=
  let stock := db.stocks.filter (fun s => s.product_id == sale.product_id)
  match stock with
  | [] => (.err 400 "Insufficient stock available", db)
  | s0 :: _ =>
    if s0.stock_quantity < sale.quantity_sold then
      (.err 400 "Insufficient stock available", db)
    else
      let db1 := if insertOk then { db with sales := db.sales ++ [sale] } else db
      let db2 := if updateOk then
          { db1 with stocks := db1.stocks.map (fun s =>
              if s.product_id == sale.product_id then
                { s with stock_quantity := s.stock_quantity - sale.quantity_sold }
              else s) }
        else db1
      (.ok "Sale added and stock updated successfully", db2)

/-- `add_sale` on the happy store path: both writes commit. -/
def add_sale (db : DB) (sale : SaleRow) : Response × DB :=
  add_sale_exec true true db sale

/-- `remove_stock` (src/main.py:236-261).  The check, delete and update all
filter by `stock_id = %s AND user_id = %s`; only `stock[0]` of the check's
result is read. -/
def remove_stock (db : DB) (stock_id quantity user_id : Int) : Response × DB :=
  let stock := db.stocks.filter
    (fun s => s.stock_id == stock_id && s.user_id == user_id)
  match stock with
  | [] => (.err 404 "Stock not found for this product and user", db)
  | s0 :: _ =>
    let current_stock := s0.stock_quantity
    if current_stock < quantity then
      (.err 400 "Not enough stock available to remove", db)
    else if current_stock == quantity then
      (.ok "Stock completely removed",
        { db with stocks := (db.stocks.filter
            (fun s => !(s.stock_id == stock_id && s.user_id == user_id))) })
    else
      (.ok ("Stock reduced by " ++ toString quantity ++ ". Remaining stock: "
          ++ toString (current_stock - quantity)),
        { db with stocks := db.stocks.map (fun s =>
            if s.stock_id == stock_id && s.user_id == user_id then
              { s with stock_quantity := s.stock_quantity - quantity }
            else s) })

/-- `delete_product` (src/main.py:217-234): existence check by
`product_id` alone, then delete the matching stock rows, then the product
rows.  No `user_id` appears in any of the three statements. -/
def delete_product (db : DB) (product_id : Int) : Response × DB :=
  let product := db.products.filter (fun p => p.product_id == product_id)
  match product with
  | [] => (.err 404 "Product not found", db)
  | _ :: _ =>
    let db1 := { db with stocks := (db.stocks.filter
        (fun s => !(s.product_id == product_id))) }
    let db2 := { db1 with products := (db1.products.filter
        (fun p => !(p.product_id == product_id))) }
    (.ok "Product and associated stocks deleted successfully", db2)

/-- A row of the expiring-stock query's result set. -/
structure ExpiringRow where
  stock_id : Int
  product_name : String
  stock_quantity : Int
  expiry_date : Int
deriving Repr, DecidableEq

/-- `get_expiring_stocks` (src/main.py:203-215): threshold =
`datetime.now() + timedelta(days)` (here `today + days`); the query joins
`stocks` with `products` on `product_id` and keeps rows with
`expiry_date <= threshold AND user_id = %s`.  Pure read: the store is
returned unchanged. -/
def get_expiring_stocks (db : DB) (today user_id days : Int) :
    List ExpiringRow × DB :=
  let expiry_threshold := today + days
  ((((db.stocks.flatMap (fun s =>
        (db.products.filter (fun p => p.product_id == s.product_id)).map
          (fun p => (s, p)))).filter
      (fun sp => decide (sp.1.expiry_date ≤ expiry_threshold)
        && sp.1.user_id == user_id)).map
      (fun sp =>
        ExpiringRow.mk sp.1.stock_id sp.2.product_name sp.1.stock_quantity
          sp.1.expiry_date)),
    db)

/-- `get_expiring_stocks` with the endpoint's default `days: int = 7`. -/
def get_expiring_stocks_default (db : DB) (today user_id : Int) :
    List ExpiringRow × DB :=
  get_expiring_stocks db today user_id 7

/-- Total stock recorded for a product: the sum of `stock_quantity` over
all stock rows with that `product_id`. -/
def totalStock (db : DB) (product_id : Int) : Int :=
  ((db.stocks.filter (fun s => s.product_id == product_id)).map
    (fun s => s.stock_quantity)).sum

/-- One step of the stock-mutating workflow: a `recordSale` request or a
`removeStock` request. -/
inductive InvOp where
  | sale (s : SaleRow)
  | remove (stock_id quantity user_id : Int)
deriving Repr, DecidableEq

/-- The store state after executing one workflow step. -/
def applyOp (db : DB) (op : InvOp) : DB :=
  match op with
  | .sale s => (add_sale db s).2
  | .remove sid q uid => (remove_stock db sid q uid).2

/-- The store state after executing a sequence of workflow steps. -/
def runOps (db : DB) (ops : List InvOp) : DB :=
  ops.foldl applyOp db

/-- Every stock row has a non-negative quantity. -/
def NonnegStocks (db : DB) : Prop :=
  ∀ s ∈ db.stocks, 0 ≤ s.stock_quantity

/-- No two stock rows share a `stock_id`, and no two stock rows share a
`product_id` (at most one lot per product). -/
def UniqueStockKeys (db : DB) : Prop :=
  db.stocks.Pairwise (fun a b => a.stock_id ≠ b.stock_id ∧ a.product_id ≠ b.product_id)

/-- Two example stock tables used as concrete instances below. -/
def dbTwoLots : DB :=
  ⟨[⟨1, 10, 5, 100, 1⟩, ⟨2, 10, 2, 100, 1⟩], [], []⟩

/-- A store whose single stock row keeps product ids unique. -/
def dbOneLot : DB :=
  ⟨[⟨1, 10, 5, 100, 1⟩], [], []⟩

/-- A store with two equal lots of product 10. -/
def dbTwoEqualLots : DB :=
  ⟨[⟨1, 10, 5, 100, 1⟩, ⟨2, 10, 5, 100, 1⟩], [], []⟩

/-- Under a pairwise-incompatibility hypothesis, `l.filter p` has at most
one element. -/
theorem filter_pairwise_subsingleton {α : Type} (p : α → Bool) :
    ∀ l : List α, l.Pairwise (fun a b => ¬(p a = true ∧ p b = true)) →
      ∀ a ∈ l.filter p, ∀ b ∈ l.filter p, a = b := by
  intro l
  induction l with
  | nil => intro _ a ha; simp at ha
  | cons x xs ih =>
    intro hp a ha b hb
    rw [List.pairwise_cons] at hp
    by_cases hx : p x = true
    · rw [List.filter_cons_of_pos hx] at ha hb
      rcases List.mem_cons.mp ha with rfl | ha'
      · rcases List.mem_cons.mp hb with rfl | hb'
        · rfl
        · have hb2 := List.mem_filter.mp hb'
          exact (hp.1 b hb2.1 ⟨hx, hb2.2⟩).elim
      · rcases List.mem_cons.mp hb with rfl | hb'
        · have ha2 := List.mem_filter.mp ha'
          exact (hp.1 a ha2.1 ⟨hx, ha2.2⟩).elim
        · exact ih hp.2 a ha' b hb'
    · rw [List.filter_cons_of_neg hx] at ha hb
      exact ih hp.2 a ha b hb

/-- If stock rows have pairwise distinct keys, two rows of
`db.stocks.filter p` agree whenever `p` pins down one of the two keys. -/
theorem filter_product_id_subsingleton (db : DB) (hkeys : UniqueStockKeys db)
    (pid : Int) :
    ∀ a ∈ db.stocks.filter (fun s => s.product_id == pid),
      ∀ b ∈ db.stocks.filter (fun s => s.product_id == pid), a = b := by
  refine filter_pairwise_subsingleton _ _ (hkeys.imp ?_)
  intro a b hab hpq
  have ha : a.product_id = pid := by simpa using hpq.1
  have hb : b.product_id = pid := by simpa using hpq.2
  exact hab.2 (ha.trans hb.symm)

/-- Same statement for the `stock_id = %s AND user_id = %s` filter used by
`remove_stock`. -/
theorem filter_stock_id_subsingleton (db : DB) (hkeys : UniqueStockKeys db)
    (sid uid : Int) :
    ∀ a ∈ db.stocks.filter (fun s => s.stock_id == sid && s.user_id == uid),
      ∀ b ∈ db.stocks.filter (fun s => s.stock_id == sid && s.user_id == uid),
        a = b := by
  refine filter_pairwise_subsingleton _ _ (hkeys.imp ?_)
  intro a b hab hpq
  have ha : a.stock_id = sid := by
    have := hpq.1
    simp only [Bool.and_eq_true, beq_iff_eq] at this
    exact this.1
  have hb : b.stock_id = sid := by
    have := hpq.2
    simp only [Bool.and_eq_true, beq_iff_eq] at this
    exact this.1
  exact hab.1 (ha.trans hb.symm)

/-- `add_sale` preserves key uniqueness and (given key uniqueness)
non-negativity of all stock quantities. -/
theorem add_sale_preserves_good (db : DB) (sale : SaleRow)
    (hkeys : UniqueStockKeys db) (hnn : NonnegStocks db) :
    UniqueStockKeys (add_sale db sale).2 ∧ NonnegStocks (add_sale db sale).2 := by
  unfold add_sale add_sale_exec
  rcases hfl : db.stocks.filter (fun s => s.product_id == sale.product_id) with
    _ | ⟨s0, rest⟩
  · simpa [hfl] using ⟨hkeys, hnn⟩
  · by_cases hlt : s0.stock_quantity < sale.quantity_sold
    · simpa [hfl, hlt] using ⟨hkeys, hnn⟩
    · simp only [hfl, hlt, if_false, if_true]
      constructor
      · unfold UniqueStockKeys at hkeys ⊢
        simp only [List.pairwise_map]
        refine hkeys.imp ?_
        intro a b hab
        refine ⟨?_, ?_⟩ <;>
          by_cases hpa : (a.product_id == sale.product_id) = true <;>
          by_cases hpb : (b.product_id == sale.product_id) = true <;>
          simp [hpa, hpb, hab.1, hab.2]
      · intro t ht
        simp only [List.mem_map] at ht
        obtain ⟨s, hs, rfl⟩ := ht
        by_cases hps : (s.product_id == sale.product_id) = true
        · have hmem_s : s ∈ db.stocks.filter
              (fun s => s.product_id == sale.product_id) :=
            List.mem_filter.mpr ⟨hs, hps⟩
          have hmem_s0 : s0 ∈ db.stocks.filter
              (fun s => s.product_id == sale.product_id) := by
            rw [hfl]; exact List.mem_cons_self _ _
          have hss0 := filter_product_id_subsingleton db hkeys sale.product_id
            s hmem_s s0 hmem_s0
          subst hss0
          simp only [hps, if_true]
          omega
        · simp only [hps, if_false]
          exact hnn s hs

/-- `remove_stock` preserves key uniqueness and (given key uniqueness)
non-negativity of all stock quantities. -/
theorem remove_stock_preserves_good (db : DB) (sid q uid : Int)
    (hkeys : UniqueStockKeys db) (hnn : NonnegStocks db) :
    UniqueStockKeys (remove_stock db sid q uid).2 ∧
      NonnegStocks (remove_stock db sid q uid).2 := by
  unfold remove_stock
  rcases hfl : db.stocks.filter (fun s => s.stock_id == sid && s.user_id == uid)
    with _ | ⟨s0, rest⟩
  · simpa [hfl] using ⟨hkeys, hnn⟩
  · by_cases hlt : s0.stock_quantity < q
    · simpa [hfl, hlt] using ⟨hkeys, hnn⟩
    · by_cases heq : (s0.stock_quantity == q) = true
      · refine ⟨?_, ?_⟩ <;> simp only [hfl, hlt, heq, if_false, if_true]
        · exact hkeys.sublist (List.filter_sublist _)
        · intro t ht
          exact hnn t (List.mem_filter.mp ht).1
      · refine ⟨?_, ?_⟩ <;> simp only [hfl, hlt, heq, if_false, Bool.false_eq_true]
        · unfold UniqueStockKeys at hkeys ⊢
          simp only [List.pairwise_map]
          refine hkeys.imp ?_
          intro a b hab
          refine ⟨?_, ?_⟩ <;>
            by_cases hpa : (a.stock_id == sid && a.user_id == uid) = true <;>
            by_cases hpb : (b.stock_id == sid && b.user_id == uid) = true <;>
            simp [hpa, hpb, hab.1, hab.2]
        · intro t ht
          simp only [List.mem_map] at ht
          obtain ⟨s, hs, rfl⟩ := ht
          by_cases hps : (s.stock_id == sid && s.user_id == uid) = true
          · have hmem_s : s ∈ db.stocks.filter
                (fun s => s.stock_id == sid && s.user_id == uid) :=
              List.mem_filter.mpr ⟨hs, hps⟩
            have hmem_s0 : s0 ∈ db.stocks.filter
                (fun s => s.stock_id == sid && s.user_id == uid) := by
              rw [hfl]; exact List.mem_cons_self _ _
            have hss0 := filter_stock_id_subsingleton db hkeys sid uid
              s hmem_s s0 hmem_s0
            subst hss0
            simp only [hps, if_true]
            simp only [beq_iff_eq] at heq
            omega
          · simp only [hps, if_false]
            exact hnn s hs

/-- Each workflow step preserves the conjunction of key uniqueness and
non-negativity. -/
theorem applyOp_preserves_good (db : DB) (op : InvOp)
    (hkeys : UniqueStockKeys db) (hnn : NonnegStocks db) :
    UniqueStockKeys (applyOp db op) ∧ NonnegStocks (applyOp db op) := by
  cases op with
  | sale s => exact add_sale_preserves_good db s hkeys hnn
  | remove sid q uid => exact remove_stock_preserves_good db sid q uid hkeys hnn

/-- Any sequence of workflow steps preserves key uniqueness and
non-negativity. -/
theorem runOps_preserves_good (ops : List InvOp) :
    ∀ db : DB, UniqueStockKeys db → NonnegStocks db →
      UniqueStockKeys (runOps db ops) ∧ NonnegStocks (runOps db ops) := by
  induction ops with
  | nil => intro db hkeys hnn; exact ⟨hkeys, hnn⟩
  | cons op ops ih =>
    intro db hkeys hnn
    have hstep := applyOp_preserves_good db op hkeys hnn
    exact ih (applyOp db op) hstep.1 hstep.2

/-- C1 (counterexample): starting from a store whose stock quantities are
all non-negative (two lots of product 10, quantities 5 and 2), a single
`recordSale(10, 3, 1)` passes the read-check (it only inspects the first
row, quantity 5) yet the UPDATE decrements every row with `product_id =
10`, driving the second lot to quantity `-1 < 0`. -/
theorem c1_stock_goes_negative :
    (∀ s ∈ dbTwoLots.stocks, 0 ≤ s.stock_quantity) ∧
    ∃ s ∈ (runOps dbTwoLots [InvOp.sale ⟨10, 3, 1⟩]).stocks,
      s.stock_quantity < 0 := by
  decide

/-- C1 (amended): provided no two stock rows share a `product_id` and no
two share a `stock_id` — so the row the read-check inspects is the only
row the subsequent UPDATE decrements — every sequence of `recordSale` and
`removeStock` operations keeps every `stock_quantity` non-negative. -/
theorem c1_stock_nonneg_of_unique_keys (db : DB) (ops : List InvOp)
    (hkeys : UniqueStockKeys db) (hnn : NonnegStocks db) :
    NonnegStocks (runOps db ops) :=
  (runOps_preserves_good ops db hkeys hnn).2

/-- C1 (witness): the amended theorem applied to a one-lot store and a
concrete two-step operation sequence. -/
theorem c1_stock_nonneg_witness :
    UniqueStockKeys dbOneLot ∧ NonnegStocks dbOneLot ∧
    NonnegStocks (runOps dbOneLot [InvOp.sale ⟨10, 3, 1⟩, InvOp.remove 1 2 1]) :=
  have h1 : UniqueStockKeys dbOneLot := by
    unfold UniqueStockKeys dbOneLot
    exact List.pairwise_singleton _ _
  have h2 : NonnegStocks dbOneLot := by
    unfold NonnegStocks
    decide
  ⟨h1, h2, c1_stock_nonneg_of_unique_keys dbOneLot _ h1 h2⟩

/-- C2: whenever the stock check comes back empty, or its first row's
`stock_quantity` is below `quantity_sold`, `add_sale` fails with HTTP 400
"Insufficient stock available" and the store is returned exactly as it
was: no Sale row is created and no stock quantity changes. -/
theorem c2_insufficient_stock_no_mutation (db : DB) (sale : SaleRow)
    (h : db.stocks.filter (fun s => s.product_id == sale.product_id) = [] ∨
         ∃ s0 rest,
           db.stocks.filter (fun s => s.product_id == sale.product_id)
             = s0 :: rest ∧ s0.stock_quantity < sale.quantity_sold) :
    add_sale db sale = (.err 400 "Insufficient stock available", db) := by
  unfold add_sale add_sale_exec
  rcases h with h | ⟨s0, rest, hfl, hlt⟩
  · simp [h]
  · simp [hfl, hlt]

/-- C2 (witness): selling a product with no stock row fails with 400 and
leaves the store untouched. -/
theorem c2_insufficient_stock_witness :
    dbOneLot.stocks.filter (fun s => s.product_id == (99 : Int)) = [] ∧
    add_sale dbOneLot ⟨99, 1, 1⟩
      = (.err 400 "Insufficient stock available", dbOneLot) :=
  ⟨by decide,
   c2_insufficient_stock_no_mutation dbOneLot ⟨99, 1, 1⟩ (Or.inl (by decide))⟩

/-- In a list of stock rows that all have product id `pid`, mapping the
sale decrement over the list lowers the quantity sum by `q * length`. -/
theorem sum_qty_after_decrement (pid q : Int) :
    ∀ l : List StockRow,
      ((((l.map (fun s => if s.product_id == pid then
            { s with stock_quantity := s.stock_quantity - q } else s)).filter
          (fun s => s.product_id == pid)).map (fun s => s.stock_quantity)).sum)
        = (((l.filter (fun s => s.product_id == pid)).map
            (fun s => s.stock_quantity)).sum)
          - q * ((l.filter (fun s => s.product_id == pid)).length : Int) := by
  intro l
  induction l with
  | nil => simp
  | cons s l ih =>
    by_cases hs : (s.product_id == pid) = true
    · simp only [List.map_cons, List.filter_cons, hs, if_true, if_pos]
      simp only [List.map_cons, List.sum_cons, List.length_cons]
      rw [ih]
      push_cast
      ring
    · simp only [List.map_cons, List.filter_cons, hs, if_false]
      simpa [hs] using ih

/-- C3 (counterexample): with two lots of product 10 (quantities 5 and 5),
`recordSale(10, 2, 1)` passes the check, inserts exactly one Sale row and
reports success, but the total stock recorded for product 10 drops from 10
to 6 — by 4, not by the claimed `quantity_sold = 2`, because the UPDATE
decrements every row with that `product_id`. -/
theorem c3_total_drop_not_quantity_sold :
    (add_sale dbTwoEqualLots ⟨10, 2, 1⟩).1
        = .ok "Sale added and stock updated successfully" ∧
    (add_sale dbTwoEqualLots ⟨10, 2, 1⟩).2.sales = [⟨10, 2, 1⟩] ∧
    totalStock dbTwoEqualLots 10 = 10 ∧
    totalStock (add_sale dbTwoEqualLots ⟨10, 2, 1⟩).2 10 = 6 := by
  refine ⟨rfl, rfl, rfl, rfl⟩

/-- C3 (amended): when the stock check passes, `add_sale` reports success,
appends exactly one Sale row `{productId, quantitySold, userId}`, and the
total stock recorded for the product decreases by `quantity_sold`
multiplied by the number of stock rows carrying that `product_id` — which
is exactly `quantity_sold` in the intended case of a single such row. -/
theorem c3_sale_decrements_each_lot (db : DB) (sale : SaleRow)
    (s0 : StockRow) (rest : List StockRow)
    (hfl : db.stocks.filter (fun s => s.product_id == sale.product_id)
      = s0 :: rest)
    (hq : ¬ s0.stock_quantity < sale.quantity_sold) :
    (add_sale db sale).1 = .ok "Sale added and stock updated successfully" ∧
    (add_sale db sale).2.sales = db.sales ++ [sale] ∧
    totalStock (add_sale db sale).2 sale.product_id
      = totalStock db sale.product_id
        - sale.quantity_sold
          * ((db.stocks.filter
              (fun s => s.product_id == sale.product_id)).length : Int) ∧
    ((db.stocks.filter (fun s => s.product_id == sale.product_id)).length = 1 →
      totalStock (add_sale db sale).2 sale.product_id
        = totalStock db sale.product_id - sale.quantity_sold) := by
  have hout : add_sale db sale
      = (.ok "Sale added and stock updated successfully",
         { db with
             sales := db.sales ++ [sale]
             stocks := (db.stocks.map (fun s =>
               if s.product_id == sale.product_id then
                 { s with stock_quantity := s.stock_quantity - sale.quantity_sold }
               else s)) }) := by
    unfold add_sale add_sale_exec
    simp [hfl, hq]
  refine ⟨by rw [hout], by rw [hout], ?_, ?_⟩
  · rw [hout]
    unfold totalStock
    exact sum_qty_after_decrement sale.product_id sale.quantity_sold db.stocks
  · intro hlen
    rw [hout]
    unfold totalStock
    have := sum_qty_after_decrement sale.product_id sale.quantity_sold db.stocks
    rw [hlen] at this
    simpa using this

/-- C3 (witness): the amended theorem on a one-lot store: the total drops
by exactly the quantity sold. -/
theorem c3_sale_decrements_witness :
    dbOneLot.stocks.filter (fun s => s.product_id == (10 : Int))
        = [⟨1, 10, 5, 100, 1⟩] ∧
    ¬ (5 : Int) < 3 ∧
    (add_sale dbOneLot ⟨10, 3, 1⟩).1
        = .ok "Sale added and stock updated successfully" ∧
    (add_sale dbOneLot ⟨10, 3, 1⟩).2.sales = [⟨10, 3, 1⟩] ∧
    totalStock (add_sale dbOneLot ⟨10, 3, 1⟩).2 10
        = totalStock dbOneLot 10 - 3 :=
  have h := c3_sale_decrements_each_lot dbOneLot ⟨10, 3, 1⟩ ⟨1, 10, 5, 100, 1⟩ []
    (by decide) (by decide)
  ⟨by decide, by decide, h.1, by simpa using h.2.1, h.2.2.2 (by decide)⟩

/-- When no stock row matches `(stock_id, user_id)`, `remove_stock` fails
with HTTP 404 and leaves the store unchanged. -/
theorem remove_stock_not_found (db : DB) (sid q uid : Int)
    (h : db.stocks.filter (fun s => s.stock_id == sid && s.user_id == uid)
      = []) :
    remove_stock db sid q uid
      = (.err 404 "Stock not found for this product and user", db) := by
  unfold remove_stock
  rw [h]

/-- C4: when the `(stock_id, user_id)` check finds a row and the requested
quantity equals that row's `stock_quantity`, `remove_stock` reports
"Stock completely removed" and deletes every row matching `(stock_id,
user_id)`; afterwards no such row remains, so any subsequent
`remove_stock` for the same pair fails with HTTP 404 and changes
nothing. -/
theorem c4_full_removal_deletes_row (db : DB) (sid q uid : Int)
    (s0 : StockRow) (rest : List StockRow)
    (hfl : db.stocks.filter (fun s => s.stock_id == sid && s.user_id == uid)
      = s0 :: rest)
    (hq : q = s0.stock_quantity) :
    remove_stock db sid q uid
      = (.ok "Stock completely removed",
         { db with stocks := (db.stocks.filter
             (fun s => !(s.stock_id == sid && s.user_id == uid))) }) ∧
    (∀ s ∈ (remove_stock db sid q uid).2.stocks,
      ¬(s.stock_id = sid ∧ s.user_id = uid)) ∧
    ∀ q2 : Int,
      remove_stock (remove_stock db sid q uid).2 sid q2 uid
        = (.err 404 "Stock not found for this product and user",
           (remove_stock db sid q uid).2) := by
  subst hq
  have hout : remove_stock db sid s0.stock_quantity uid
      = (.ok "Stock completely removed",
         { db with stocks := (db.stocks.filter
             (fun s => !(s.stock_id == sid && s.user_id == uid))) }) := by
    unfold remove_stock
    simp [hfl]
  refine ⟨hout, ?_, ?_⟩
  · intro s hs
    rw [hout] at hs
    have := (List.mem_filter.mp hs).2
    simp only [Bool.not_eq_eq_eq_not, Bool.not_true, Bool.and_eq_false_imp,
      beq_iff_eq, beq_eq_false_iff_ne] at this
    exact fun hcontra => this hcontra.1 hcontra.2
  · intro q2
    refine remove_stock_not_found _ sid q2 uid ?_
    rw [hout]
    refine List.filter_eq_nil_iff.mpr ?_
    intro s hs
    have := (List.mem_filter.mp hs).2
    simp only [Bool.not_eq_eq_eq_not, Bool.not_true] at this
    simp [this]

/-- C4 (witness): removing the full quantity 5 of the one-lot store's
stock row deletes it, and a repeat removal returns 404. -/
theorem c4_full_removal_witness :
    dbOneLot.stocks.filter
        (fun s => s.stock_id == (1 : Int) && s.user_id == (1 : Int))
      = [⟨1, 10, 5, 100, 1⟩] ∧
    (5 : Int) = 5 ∧
    remove_stock dbOneLot 1 5 1
      = (.ok "Stock completely removed", ⟨[], [], []⟩) ∧
    remove_stock (remove_stock dbOneLot 1 5 1).2 1 3 1
      = (.err 404 "Stock not found for this product and user",
         (remove_stock dbOneLot 1 5 1).2) :=
  have h := c4_full_removal_deletes_row dbOneLot 1 5 1 ⟨1, 10, 5, 100, 1⟩ []
    (by decide) (by decide)
  ⟨by decide, rfl, by rw [h.1]; rfl, h.2.2 3⟩

/-- C5: when the `(stock_id, user_id)` check finds a row and the requested
quantity is strictly below that row's `stock_quantity`, `remove_stock`
decrements every matching row in place by `quantity`, reports
"Stock reduced by quantity. Remaining stock: stock_quantity - quantity",
and the decremented row is still present in the store. -/
theorem c5_partial_removal_decrements (db : DB) (sid q uid : Int)
    (s0 : StockRow) (rest : List StockRow)
    (hfl : db.stocks.filter (fun s => s.stock_id == sid && s.user_id == uid)
      = s0 :: rest)
    (hq : q < s0.stock_quantity) :
    remove_stock db sid q uid
      = (.ok ("Stock reduced by " ++ toString q ++ ". Remaining stock: "
            ++ toString (s0.stock_quantity - q)),
         { db with stocks := (db.stocks.map (fun s =>
             if s.stock_id == sid && s.user_id == uid then
               { s with stock_quantity := s.stock_quantity - q }
             else s)) }) ∧
    { s0 with stock_quantity := s0.stock_quantity - q }
      ∈ (remove_stock db sid q uid).2.stocks := by
  have hnlt : ¬ s0.stock_quantity < q := not_lt.mpr (le_of_lt hq)
  have hne : ¬ (s0.stock_quantity == q) = true := by
    simp only [beq_iff_eq]
    exact fun hcontra => absurd hq (by omega)
  have hout : remove_stock db sid q uid
      = (.ok ("Stock reduced by " ++ toString q ++ ". Remaining stock: "
            ++ toString (s0.stock_quantity - q)),
         { db with stocks := (db.stocks.map (fun s =>
             if s.stock_id == sid && s.user_id == uid then
               { s with stock_quantity := s.stock_quantity - q }
             else s)) }) := by
    unfold remove_stock
    simp [hfl, hnlt, hne]
  refine ⟨hout, ?_⟩
  have hmem0 : s0 ∈ db.stocks.filter
      (fun s => s.stock_id == sid && s.user_id == uid) := by
    rw [hfl]; exact List.mem_cons_self _ _
  have hmem := List.mem_filter.mp hmem0
  rw [hout]
  refine List.mem_map.mpr ⟨s0, hmem.1, ?_⟩
  rw [if_pos hmem.2]

/-- C5 (witness): removing 2 of 5 from the one-lot store leaves the row at
quantity 3 and reports the remaining amount. -/
theorem c5_partial_removal_witness :
    dbOneLot.stocks.filter
        (fun s => s.stock_id == (1 : Int) && s.user_id == (1 : Int))
      = [⟨1, 10, 5, 100, 1⟩] ∧
    (2 : Int) < 5 ∧
    remove_stock dbOneLot 1 2 1
      = (.ok "Stock reduced by 2. Remaining stock: 3",
         ⟨[⟨1, 10, 3, 100, 1⟩], [], []⟩) ∧
    (⟨1, 10, 3, 100, 1⟩ : StockRow) ∈ (remove_stock dbOneLot 1 2 1).2.stocks :=
  have h := c5_partial_removal_decrements dbOneLot 1 2 1 ⟨1, 10, 5, 100, 1⟩ []
    (by decide) (by decide)
  ⟨by decide, by decide, by rw [h.1]; rfl, h.2⟩

/-- C6: when the `(stock_id, user_id)` check finds a row and the requested
quantity strictly exceeds that row's `stock_quantity`, `remove_stock`
fails with HTTP 400 "Not enough stock available to remove" and returns the
store exactly as it was. -/
theorem c6_remove_insufficient_no_mutation (db : DB) (sid q uid : Int)
    (s0 : StockRow) (rest : List StockRow)
    (hfl : db.stocks.filter (fun s => s.stock_id == sid && s.user_id == uid)
      = s0 :: rest)
    (hq : s0.stock_quantity < q) :
    remove_stock db sid q uid
      = (.err 400 "Not enough stock available to remove", db) := by
  unfold remove_stock
  simp [hfl, hq]

/-- C6 (witness): removing 6 from a row holding 5 fails with 400 and the
store is unchanged. -/
theorem c6_remove_insufficient_witness :
    dbOneLot.stocks.filter
        (fun s => s.stock_id == (1 : Int) && s.user_id == (1 : Int))
      = [⟨1, 10, 5, 100, 1⟩] ∧
    (5 : Int) < 6 ∧
    remove_stock dbOneLot 1 6 1
      = (.err 400 "Not enough stock available to remove", dbOneLot) :=
  ⟨by decide, by decide,
   c6_remove_insufficient_no_mutation dbOneLot 1 6 1 ⟨1, 10, 5, 100, 1⟩ []
     (by decide) (by decide)⟩

/-- A store with one product and one stock lot referencing it. -/
def dbWithProduct : DB :=
  ⟨[⟨1, 10, 5, 100, 1⟩], [], [⟨10, "apple", 1⟩]⟩

/-- C7: `delete_product` on an absent `product_id` fails with HTTP 404 and
mutates nothing; on a present one it reports success, deletes every stock
row whose `product_id` matches and then the product rows themselves, so
that afterwards no stock row and no product row carries the deleted
`product_id`. -/
theorem c7_delete_product_cascades (db : DB) (pid : Int) :
    (db.products.filter (fun p => p.product_id == pid) = [] →
      delete_product db pid = (.err 404 "Product not found", db)) ∧
    (db.products.filter (fun p => p.product_id == pid) ≠ [] →
      delete_product db pid
        = (.ok "Product and associated stocks deleted successfully",
           ⟨db.stocks.filter (fun s => !(s.product_id == pid)),
            db.sales,
            db.products.filter (fun p => !(p.product_id == pid))⟩) ∧
      (∀ s ∈ (delete_product db pid).2.stocks, s.product_id ≠ pid) ∧
      (∀ p ∈ (delete_product db pid).2.products, p.product_id ≠ pid)) := by
  by_cases hfl : db.products.filter (fun p => p.product_id == pid) = []
  · refine ⟨fun _ => ?_, fun hne => absurd hfl hne⟩
    unfold delete_product
    rw [hfl]
  · have hout : delete_product db pid
        = (.ok "Product and associated stocks deleted successfully",
           ⟨db.stocks.filter (fun s => !(s.product_id == pid)),
            db.sales,
            db.products.filter (fun p => !(p.product_id == pid))⟩) := by
      unfold delete_product
      rcases h2 : db.products.filter (fun p => p.product_id == pid) with
        _ | ⟨p0, rest⟩
      · exact absurd h2 hfl
      · rw [h2]
    refine ⟨fun h => absurd h hfl, fun _ => ⟨hout, ?_, ?_⟩⟩
    · intro s hs
      rw [hout] at hs
      have := (List.mem_filter.mp hs).2
      simpa using this
    · intro p hp
      rw [hout] at hp
      have := (List.mem_filter.mp hp).2
      simpa using this

/-- C7 (witness): deleting product 10 removes its stock lot and the
product row; deleting absent product 11 returns 404 unchanged. -/
theorem c7_delete_product_witness :
    dbWithProduct.products.filter (fun p => p.product_id == (10 : Int))
        ≠ [] ∧
    delete_product dbWithProduct 10
      = (.ok "Product and associated stocks deleted successfully",
         ⟨[], [], []⟩) ∧
    dbWithProduct.products.filter (fun p => p.product_id == (11 : Int))
        = [] ∧
    delete_product dbWithProduct 11
      = (.err 404 "Product not found", dbWithProduct) :=
  have h10 := c7_delete_product_cascades dbWithProduct 10
  have h11 := c7_delete_product_cascades dbWithProduct 11
  ⟨by decide, by rw [(h10.2 (by decide)).1]; rfl, by decide,
   h11.1 (by decide)⟩

/-- Filtering with `g` after filtering with a weaker predicate `f` is the
same as filtering with `g` alone. -/
theorem filter_filter_of_imp {α : Type} (f g : α → Bool)
    (h : ∀ a, g a = true → f a = true) :
    ∀ l : List α, (l.filter f).filter g = l.filter g := by
  intro l
  induction l with
  | nil => rfl
  | cons a l ih =>
    by_cases hfa : f a = true
    · rw [List.filter_cons_of_pos hfa]
      by_cases hga : g a = true
      · rw [List.filter_cons_of_pos hga, List.filter_cons_of_pos hga, ih]
      · rw [List.filter_cons_of_neg hga, List.filter_cons_of_neg hga, ih]
    · have hga : ¬ g a = true := fun hga => hfa (h a hga)
      rw [List.filter_cons_of_neg hfa, List.filter_cons_of_neg hga, ih]

/-- Mapping a function that fixes every element kept by the filter (and
does not change membership in the filter) commutes away. -/
theorem filter_map_invariant {α : Type} (f : α → α) (g : α → Bool)
    (hg : ∀ a, g (f a) = g a) (hf : ∀ a, g a = true → f a = a) :
    ∀ l : List α, (l.map f).filter g = l.filter g := by
  intro l
  induction l with
  | nil => rfl
  | cons a l ih =>
    rw [List.map_cons]
    by_cases hga : g a = true
    · rw [List.filter_cons_of_pos (by rw [hg]; exact hga),
        List.filter_cons_of_pos hga, ih, hf a hga]
    · rw [List.filter_cons_of_neg (by rw [hg]; exact hga),
        List.filter_cons_of_neg hga, ih]

/-- A store whose only stock row belongs to user 2. -/
def dbUserTwo : DB :=
  ⟨[⟨1, 10, 5, 100, 2⟩], [], []⟩

/-- C8 (counterexample): every stock row of the store belongs to user 2,
yet `recordSale(10, 3, userId = 1)` issued by user 1 succeeds and mutates
user 2's row: `add_sale`'s stock check and UPDATE filter only by
`product_id`, not by the caller's `user_id`. -/
theorem c8_cross_user_mutation :
    (∀ s ∈ dbUserTwo.stocks, s.user_id = 2) ∧
    (add_sale dbUserTwo ⟨10, 3, 1⟩).1
        = .ok "Sale added and stock updated successfully" ∧
    (add_sale dbUserTwo ⟨10, 3, 1⟩).2.stocks ≠ dbUserTwo.stocks := by
  decide

/-- C8 (amended): only `remove_stock` is fully scoped by the caller's
`user_id`: it never touches `sales` or `products` and leaves every stock
row of any other user exactly in place.  `add_sale` is user-scoped only in
what it appends to `sales` — the appended row carries the caller's
`user_id`, other users' sale rows survive unchanged, and `products` is
untouched — while its stock check and stock UPDATE ignore `user_id`
entirely (and `delete_product` takes no `user_id` at all). -/
theorem c8_only_remove_stock_user_scoped (db : DB) (sid q uid : Int)
    (sale : SaleRow) :
    (remove_stock db sid q uid).2.sales = db.sales ∧
    (remove_stock db sid q uid).2.products = db.products ∧
    (remove_stock db sid q uid).2.stocks.filter (fun s => !(s.user_id == uid))
      = db.stocks.filter (fun s => !(s.user_id == uid)) ∧
    (add_sale db sale).2.sales.filter
        (fun r => !(r.user_id == sale.user_id))
      = db.sales.filter (fun r => !(r.user_id == sale.user_id)) ∧
    (add_sale db sale).2.products = db.products := by
  have hrem : (remove_stock db sid q uid).2.sales = db.sales ∧
      (remove_stock db sid q uid).2.products = db.products ∧
      (remove_stock db sid q uid).2.stocks.filter
          (fun s => !(s.user_id == uid))
        = db.stocks.filter (fun s => !(s.user_id == uid)) := by
    unfold remove_stock
    rcases hfl : db.stocks.filter
        (fun s => s.stock_id == sid && s.user_id == uid) with _ | ⟨s0, rest⟩
    · simp only [hfl]
      exact ⟨trivial, trivial, trivial⟩
    · by_cases hlt : s0.stock_quantity < q
      · simp [hfl, hlt]
      · by_cases heq : (s0.stock_quantity == q) = true
        · simp only [hfl, hlt, heq, if_false, if_true]
          refine ⟨trivial, trivial, ?_⟩
          refine filter_filter_of_imp _ _ ?_ db.stocks
          intro s hgs
          simp only [Bool.not_eq_eq_eq_not, Bool.not_true,
            beq_eq_false_iff_ne] at hgs
          simp [hgs]
        · simp only [hfl, hlt, heq, if_false, Bool.false_eq_true]
          refine ⟨trivial, trivial, ?_⟩
          refine filter_map_invariant _ _ ?_ ?_ db.stocks
          · intro s
            by_cases hps : (s.stock_id == sid && s.user_id == uid) = true <;>
              simp [hps]
          · intro s hgs
            simp only [Bool.not_eq_eq_eq_not, Bool.not_true,
              beq_eq_false_iff_ne] at hgs
            have : (s.stock_id == sid && s.user_id == uid) = false := by
              simp [hgs]
            rw [if_neg (by simp [this])]
  have hsale : (add_sale db sale).2.sales.filter
        (fun r => !(r.user_id == sale.user_id))
      = db.sales.filter (fun r => !(r.user_id == sale.user_id)) ∧
      (add_sale db sale).2.products = db.products := by
    unfold add_sale add_sale_exec
    rcases hfl : db.stocks.filter
        (fun s => s.product_id == sale.product_id) with _ | ⟨s0, rest⟩
    · simp only [hfl]
      exact ⟨trivial, trivial⟩
    · by_cases hlt : s0.stock_quantity < sale.quantity_sold
      · simp [hfl, hlt]
      · simp only [hfl, hlt, if_false, if_true]
        refine ⟨?_, trivial⟩
        rw [List.filter_append]
        simp
  exact ⟨hrem.1, hrem.2.1, hrem.2.2, hsale.1, hsale.2⟩

/-- C9: the expiring-stock query returns exactly the stock rows owned by
`user_id` whose `expiry_date` is on or before `today + days` and that join
to a product row, each paired with that product's name; the store is
returned unchanged (pure read), and omitting `days` means `days = 7`.
With `days = 0` the threshold is `today` itself, so only rows with
`expiry_date ≤ today` qualify. -/
theorem c9_expiring_query_exact (db : DB) (today uid days : Int)
    (r : ExpiringRow) :
    (r ∈ (get_expiring_stocks db today uid days).1 ↔
      ∃ s ∈ db.stocks, ∃ p ∈ db.products,
        p.product_id = s.product_id ∧ s.user_id = uid ∧
        s.expiry_date ≤ today + days ∧
        r = ⟨s.stock_id, p.product_name, s.stock_quantity, s.expiry_date⟩) ∧
    (get_expiring_stocks db today uid days).2 = db ∧
    get_expiring_stocks_default db today uid
      = get_expiring_stocks db today uid 7 := by
  refine ⟨?_, rfl, rfl⟩
  unfold get_expiring_stocks
  simp only [List.mem_map, List.mem_filter, List.mem_flatMap,
    Bool.and_eq_true, beq_iff_eq, decide_eq_true_eq]
  constructor
  · rintro ⟨⟨s, p⟩, ⟨⟨s', hs', p', hp', hpair⟩, hexp, huid⟩, hr⟩
    rw [Prod.mk.injEq] at hpair
    obtain ⟨rfl, rfl⟩ := hpair
    exact ⟨s', hs', p', hp'.1, hp'.2, huid, hexp, hr.symm⟩
  · rintro ⟨s, hs, p, hp, hpid, huid, hexp, hr⟩
    exact ⟨(s, p), ⟨⟨s, hs, p, ⟨hp, hpid⟩, rfl⟩, hexp, huid⟩, hr.symm⟩

/-- C10: once the stock check passes, `add_sale` returns the success
message no matter whether the sale INSERT or the stock UPDATE commit —
their results are never inspected — and when both writes fail the caller
still gets success over a completely unchanged store. -/
theorem c10_success_despite_write_failures (db : DB) (sale : SaleRow)
    (s0 : StockRow) (rest : List StockRow)
    (hfl : db.stocks.filter (fun s => s.product_id == sale.product_id)
      = s0 :: rest)
    (hq : ¬ s0.stock_quantity < sale.quantity_sold) :
    (∀ insertOk updateOk : Bool,
      (add_sale_exec insertOk updateOk db sale).1
        = .ok "Sale added and stock updated successfully") ∧
    (add_sale_exec false false db sale).2 = db := by
  constructor
  · intro i u
    unfold add_sale_exec
    simp [hfl, hq]
  · unfold add_sale_exec
    simp [hfl, hq]

/-- C10 (witness): with the check passed on the one-lot store, a failed
INSERT and failed UPDATE still yield the success message and leave the
store untouched. -/
theorem c10_success_despite_write_failures_witness :
    dbOneLot.stocks.filter (fun s => s.product_id == (10 : Int))
        = [⟨1, 10, 5, 100, 1⟩] ∧
    ¬ (5 : Int) < 3 ∧
    (add_sale_exec false true dbOneLot ⟨10, 3, 1⟩).1
        = .ok "Sale added and stock updated successfully" ∧
    (add_sale_exec false false dbOneLot ⟨10, 3, 1⟩).2 = dbOneLot :=
  have h := c10_success_despite_write_failures dbOneLot ⟨10, 3, 1⟩
    ⟨1, 10, 5, 100, 1⟩ [] (by decide) (by decide)
  ⟨by decide, by decide, h.1 false true, h.2⟩

end RetailInventory
